import Mathlib

/-!
# Parcel store (`parcel.go`)

A shallow embedding of the `ParcelStore` access layer.  The Go code talks to a
relational store through `database/sql`; here the store is an explicit value
`DB` (the `parcel` table plus its AUTOINCREMENT high-water mark) that every
method receives and, when it writes, returns.

The six SQL statements of `parcel.go` are embedded one by one as functions on
`DB`.  The engine model raises one storage error of its own:
the INSERT fails once the AUTOINCREMENT sequence is exhausted.  Transport
failures of the driver (closed handle, disk errors) are outside the model; the
`err != nil` branches of the Go methods are kept and propagate whatever the
statement reports.  Go `int` is taken to be 64 bits wide, so `int(id)` on the
`int64` row id is the identity.
-/

namespace Sprint8

/-! ## Data model -/

/-- Modelled from the spec: the `Parcel` struct, declared outside `parcel.go`
(spec section 3: `Number`, `Client` integers; `Status`, `Address`, `CreatedAt`
strings). -/
structure Parcel where
  Number : Int
  Client : Int
  Status : String
  Address : String
  CreatedAt : String
deriving DecidableEq, Repr

/-- Modelled from the spec: the status constant `ParcelStatusRegistered`, declared
outside `parcel.go` (spec section 3 names the value `registered`). -/
def ParcelStatusRegistered : String := "registered"

/-- Modelled from the spec: the status constant `ParcelStatusSent`, declared outside
`parcel.go` (spec section 3 names the value `sent`). -/
def ParcelStatusSent : String := "sent"

/-- Go `error` values met in `parcel.go`: the sentinel `sql.ErrNoRows`, an error
reported by the storage engine, and a value built by `errors.New`. -/
inductive GoError where
  | ErrNoRows
  | storage (msg : String)
  | new (msg : String)
deriving DecidableEq, Repr

/-- The `Error()` method: the message of an error value. -/
def GoError.Error : GoError → String
  | .ErrNoRows => "sql: no rows in result set"
  | .storage msg => msg
  | .new msg => msg

/-- The database behind `*sql.DB` once the schema exists: the rows of table
`parcel` in row-id order of insertion, and the AUTOINCREMENT counter kept for
the table (largest row id ever handed out, 0 when none was). -/
structure DB where
  rows : List Parcel
  seq : Int
deriving DecidableEq, Repr

/-- The `sql.Result` of an `Exec`. -/
structure Result where
  lastInsertId : Int
  rowsAffected : Nat
deriving DecidableEq, Repr

/-- `result.LastInsertId()`. -/
def Result.LastInsertId (r : Result) : Except GoError Int := .ok r.lastInsertId

/-- Largest row id of the engine (`int64` maximum). -/
def MAX_ROWID : Int := 9223372036854775807

/-- The constraints the schema puts on the table: `number` is a PRIMARY KEY
(no two rows share it) and the AUTOINCREMENT counter is never negative. -/
def DB.Valid (db : DB) : Prop :=
  (db.rows.map Parcel.Number).Nodup ∧ 0 ≤ db.seq

instance (db : DB) : Decidable db.Valid :=
  inferInstanceAs (Decidable ((db.rows.map Parcel.Number).Nodup ∧ 0 ≤ db.seq))

/-! ## The SQL statements -/

/-- Row id chosen for an INSERT into an `INTEGER PRIMARY KEY AUTOINCREMENT` table:
one more than the larger of the largest row id present and the counter; the
insert is refused when either has reached `MAX_ROWID`. -/
def DB.NewRowid (db : DB) : Except GoError Int :=
  let vr : Int × Bool :=
    match db.rows.map Parcel.Number with
    | [] => (1, false)
    | n :: ns =>
      let last := ns.foldl max n
      if MAX_ROWID ≤ last then (last, true) else (last + 1, false)
  if db.seq = MAX_ROWID ∨ vr.2 = true then
    .error (.storage "database or disk is full")
  else
    .ok (if vr.1 < db.seq + 1 then db.seq + 1 else vr.1)

/-- `INSERT INTO parcel (client, status, address, created_at) VALUES (?, ?, ?, ?)`. -/
def DB.ExecInsert (db : DB) (client : Int) (status address created_at : String) :
    Except GoError Result × DB :=
  match db.NewRowid with
  | .error err => (.error err, db)
  | .ok v => (.ok ⟨v, 1⟩, ⟨db.rows ++ [⟨v, client, status, address, created_at⟩], v⟩)

/-- `QueryRow` of `SELECT number, client, status, address, created_at FROM parcel
WHERE number = ?`: the first matching row, if any. -/
def DB.QueryRow (db : DB) (number : Int) : Option Parcel :=
  db.rows.find? (fun r => r.Number == number)

/-- `row.Scan(...)` on the result of `QueryRow`: `sql.ErrNoRows` when there is no row. -/
def Row.Scan : Option Parcel → Except GoError Parcel
  | none => .error .ErrNoRows
  | some r => .ok r

/-- `SELECT number, client, status, address, created_at FROM parcel WHERE client = ?`. -/
def DB.Query (db : DB) (client : Int) : Except GoError (List Parcel) :=
  .ok (db.rows.filter (fun r => r.Client == client))

/-- `rows.Scan(...)` on the current row of a result set. -/
def Rows.Scan (r : Parcel) : Except GoError Parcel := .ok r

/-- `UPDATE parcel SET status = ? WHERE number = ?`. -/
def DB.ExecSetStatus (db : DB) (status : String) (number : Int) :
    Except GoError Result × DB :=
  (.ok ⟨0, (db.rows.filter (fun r => r.Number == number)).length⟩,
   ⟨db.rows.map (fun r => if r.Number = number then { r with Status := status } else r),
    db.seq⟩)

/-- `UPDATE parcel SET address = ? WHERE number = ?`. -/
def DB.ExecSetAddress (db : DB) (address : String) (number : Int) :
    Except GoError Result × DB :=
  (.ok ⟨0, (db.rows.filter (fun r => r.Number == number)).length⟩,
   ⟨db.rows.map (fun r => if r.Number = number then { r with Address := address } else r),
    db.seq⟩)

/-- `DELETE FROM parcel WHERE number = ?`. -/
def DB.ExecDelete (db : DB) (number : Int) : Except GoError Result × DB :=
  (.ok ⟨0, (db.rows.filter (fun r => r.Number == number)).length⟩,
   ⟨db.rows.filter (fun r => !(r.Number == number)), db.seq⟩)

/-- `CREATE TABLE IF NOT EXISTS parcel (...)`: an absent table is created empty,
an existing one is left as it is. -/
def DB.ExecCreate : Option DB → Except GoError Result × DB
  | none => (.ok ⟨0, 0⟩, ⟨[], 0⟩)
  | some db => (.ok ⟨0, 0⟩, db)

/-! ## `ParcelStore` -/

/-- The store: a handle on the database. -/
structure ParcelStore where
  db : DB
deriving DecidableEq, Repr

/-- `NewParcelStore`: ensures the schema; `none` stands for the panic. -/
def NewParcelStore (db : Option DB) : Option ParcelStore :=
  match DB.ExecCreate db with
  | (.error _, _) => none
  | (.ok _, db') => some ⟨db'⟩

/-- `ParcelStore.Add`: the assigned identifier, or the error, and the store after the call. -/
def ParcelStore.Add (s : ParcelStore) (p : Parcel) : Except GoError Int × ParcelStore :=
  match s.db.ExecInsert p.Client p.Status p.Address p.CreatedAt with
  | (.error err, db') => (.error err, ⟨db'⟩)
  | (.ok result, db') =>
    match result.LastInsertId with
    | .error err => (.error err, ⟨db'⟩)
    | .ok id => (.ok id, ⟨db'⟩)

/-- `ParcelStore.Get`. -/
def ParcelStore.Get (s : ParcelStore) (number : Int) : Except GoError Parcel :=
  let row := s.db.QueryRow number
  match Row.Scan row with
  | .error .ErrNoRows => .error (.new "parcel not found")
  | .error err => .error err
  | .ok p => .ok p

/-- The `for rows.Next()` loop of `GetByClient`: scans each row and appends it to `res`. -/
def ParcelStore.GetByClient.loop : List Parcel → List Parcel → Except GoError (List Parcel)
  | [], res => .ok res
  | r :: rows, res =>
    match Rows.Scan r with
    | .error err => .error err
    | .ok p => ParcelStore.GetByClient.loop rows (res ++ [p])

/-- `ParcelStore.GetByClient`. -/
def ParcelStore.GetByClient (s : ParcelStore) (client : Int) : Except GoError (List Parcel) :=
  match s.db.Query client with
  | .error err => .error err
  | .ok rows => ParcelStore.GetByClient.loop rows []

/-- `ParcelStore.SetStatus`: the returned error (`none` for `nil`) and the store after the call. -/
def ParcelStore.SetStatus (s : ParcelStore) (number : Int) (status : String) :
    Option GoError × ParcelStore :=
  match s.db.ExecSetStatus status number with
  | (.error err, db') => (some err, ⟨db'⟩)
  | (.ok _, db') => (none, ⟨db'⟩)

/-- `ParcelStore.SetAddress`. -/
def ParcelStore.SetAddress (s : ParcelStore) (number : Int) (address : String) :
    Option GoError × ParcelStore :=
  match s.Get number with
  | .error err => (some err, s)
  | .ok p =>
    if p.Status ≠ ParcelStatusRegistered then
      (some (.new "can only change address for registered parcels"), s)
    else
      match s.db.ExecSetAddress address number with
      | (.error err, db') => (some err, ⟨db'⟩)
      | (.ok _, db') => (none, ⟨db'⟩)

/-- `ParcelStore.Delete`. -/
def ParcelStore.Delete (s : ParcelStore) (number : Int) : Option GoError × ParcelStore :=
  match s.Get number with
  | .error err => (some err, s)
  | .ok p =>
    if p.Status ≠ ParcelStatusRegistered then
      (some (.new "can only delete registered parcels"), s)
    else
      match s.db.ExecDelete number with
      | (.error err, db') => (some err, ⟨db'⟩)
      | (.ok _, db') => (none, ⟨db'⟩)

/-- The parcel of `getTestParcel` in `parcel_test.go`, with a fixed timestamp. -/
def getTestParcel : Parcel := ⟨0, 1000, ParcelStatusRegistered, "test", "2024-01-01T00:00:00Z"⟩

/-- A store holding three parcels of two clients, the second already sent. -/
def sampleStore : ParcelStore :=
  ⟨⟨[⟨1, 1000, "registered", "test", "2024-01-01T00:00:00Z"⟩,
     ⟨2, 7, "sent", "far away", "2024-01-02T00:00:00Z"⟩,
     ⟨3, 1000, "delivered", "home", "2024-01-03T00:00:00Z"⟩], 3⟩⟩

/-- A writing call on the store. -/
inductive Call where
  | add (p : Parcel)
  | setStatus (number : Int) (status : String)
  | setAddress (number : Int) (address : String)
  | delete (number : Int)
deriving DecidableEq, Repr

/-- The store after one writing call, whatever the call returned. -/
def ParcelStore.after (s : ParcelStore) : Call → ParcelStore
  | .add p => (s.Add p).2
  | .setStatus n st => (s.SetStatus n st).2
  | .setAddress n a => (s.SetAddress n a).2
  | .delete n => (s.Delete n).2

/-- The store after a sequence of writing calls. -/
def ParcelStore.afterAll (s : ParcelStore) (calls : List Call) : ParcelStore :=
  calls.foldl ParcelStore.after s

/-- The store `NewParcelStore` returns on a database without the table. -/
def freshStore : ParcelStore := ⟨⟨[], 0⟩⟩

/-! ## Lemmas on the statements -/

theorem le_foldl_max (ns : List Int) (n : Int) :
    n ≤ ns.foldl max n ∧ ∀ x ∈ ns, x ≤ ns.foldl max n := by
  induction ns generalizing n with
  | nil => simp
  | cons a as ih =>
    simp only [List.foldl_cons, List.mem_cons]
    obtain ⟨h1, h2⟩ := ih (max n a)
    refine ⟨le_trans (le_max_left n a) h1, ?_⟩
    rintro x (rfl | hx)
    · exact le_trans (le_max_right n x) h1
    · exact h2 x hx

/-- A row id handed out by the engine exceeds every row id present and the counter. -/
theorem NewRowid_fresh (db : DB) (v : Int) (h : db.NewRowid = .ok v) :
    (∀ r ∈ db.rows, r.Number < v) ∧ db.seq < v := by
  unfold DB.NewRowid at h
  cases hrows : db.rows.map Parcel.Number with
  | nil =>
    have hnil : db.rows = [] := by simpa using hrows
    rw [hrows] at h
    simp only at h
    split at h
    · exact absurd h (by simp)
    · simp only [Except.ok.injEq] at h
      refine ⟨by simp [hnil], ?_⟩
      split at h <;> omega
  | cons n ns =>
    rw [hrows] at h
    simp only at h
    obtain ⟨hn, hns⟩ := le_foldl_max ns n
    have hall : ∀ r ∈ db.rows, r.Number ≤ ns.foldl max n := by
      intro r hr
      have hmem : r.Number ∈ db.rows.map Parcel.Number := List.mem_map_of_mem _ hr
      rw [hrows] at hmem
      rcases List.mem_cons.mp hmem with h1 | h1
      · rw [h1]; exact hn
      · exact hns _ h1
    by_cases hmax : MAX_ROWID ≤ ns.foldl max n
    · simp [hmax] at h
    · simp only [hmax, if_false] at h
      split at h
      · exact absurd h (by simp)
      · simp only [Except.ok.injEq] at h
        constructor
        · intro r hr
          have := hall r hr
          split at h <;> omega
        · split at h <;> omega

theorem QueryRow_absent (db : DB) (n : Int) (h : ∀ r ∈ db.rows, r.Number ≠ n) :
    db.QueryRow n = none := by
  unfold DB.QueryRow
  rw [List.find?_eq_none]
  intro r hr
  simpa using h r hr

theorem find_key_of_nodup (rows : List Parcel) (p : Parcel)
    (hnd : (rows.map Parcel.Number).Nodup) (hp : p ∈ rows) :
    rows.find? (fun r => r.Number == p.Number) = some p := by
  induction rows with
  | nil => simp at hp
  | cons a as ih =>
    simp only [List.map_cons, List.nodup_cons] at hnd
    rcases List.mem_cons.mp hp with rfl | hmem
    · simp
    · have hne : a.Number ≠ p.Number := by
        intro heq
        exact hnd.1 (heq ▸ List.mem_map_of_mem _ hmem)
      rw [List.find?_cons_of_neg _ (by simpa using hne)]
      exact ih hnd.2 hmem

theorem QueryRow_present (db : DB) (p : Parcel) (hv : db.Valid) (hp : p ∈ db.rows) :
    db.QueryRow p.Number = some p :=
  find_key_of_nodup db.rows p hv.1 hp

theorem QueryRow_some (db : DB) (n : Int) (p : Parcel) (h : db.QueryRow n = some p) :
    p ∈ db.rows ∧ p.Number = n := by
  unfold DB.QueryRow at h
  exact ⟨List.mem_of_find?_eq_some h, by simpa using List.find?_some h⟩

theorem Get_absent (s : ParcelStore) (n : Int) (h : ∀ r ∈ s.db.rows, r.Number ≠ n) :
    s.Get n = .error (.new "parcel not found") := by
  simp [ParcelStore.Get, QueryRow_absent s.db n h, Row.Scan]

theorem Get_present (s : ParcelStore) (p : Parcel) (hv : s.db.Valid) (hp : p ∈ s.db.rows) :
    s.Get p.Number = .ok p := by
  simp [ParcelStore.Get, QueryRow_present s.db p hv hp, Row.Scan]

theorem Get_ok (s : ParcelStore) (n : Int) (p : Parcel) (h : s.Get n = .ok p) :
    p ∈ s.db.rows ∧ p.Number = n := by
  unfold ParcelStore.Get at h
  cases hq : s.db.QueryRow n with
  | none => simp [hq, Row.Scan] at h
  | some r =>
    simp only [hq, Row.Scan, Except.ok.injEq] at h
    subst h
    exact QueryRow_some s.db n r hq

theorem Add_of_NewRowid_ok (s : ParcelStore) (p : Parcel) (v : Int)
    (h : s.db.NewRowid = .ok v) :
    s.Add p = (.ok v,
      ⟨⟨s.db.rows ++ [⟨v, p.Client, p.Status, p.Address, p.CreatedAt⟩], v⟩⟩) := by
  simp [ParcelStore.Add, DB.ExecInsert, h, Result.LastInsertId]

theorem Add_of_NewRowid_error (s : ParcelStore) (p : Parcel) (e : GoError)
    (h : s.db.NewRowid = .error e) : s.Add p = (.error e, s) := by
  simp [ParcelStore.Add, DB.ExecInsert, h]

theorem map_eq_self_of_forall {α : Type} (f : α → α) (l : List α)
    (h : ∀ x ∈ l, f x = x) : l.map f = l := by
  induction l with
  | nil => rfl
  | cons a as ih =>
    simp only [List.map_cons, List.cons.injEq]
    exact ⟨h a (List.mem_cons_self _ _), ih (fun x hx => h x (List.mem_cons_of_mem _ hx))⟩

theorem SetStatus_eq (s : ParcelStore) (n : Int) (st : String) :
    s.SetStatus n st =
      (none, ⟨⟨s.db.rows.map (fun r => if r.Number = n then { r with Status := st } else r),
        s.db.seq⟩⟩) := rfl

theorem SetAddress_of_Get_error (s : ParcelStore) (n : Int) (a : String) (e : GoError)
    (h : s.Get n = .error e) : s.SetAddress n a = (some e, s) := by
  simp [ParcelStore.SetAddress, h]

theorem SetAddress_of_guard (s : ParcelStore) (n : Int) (a : String) (p : Parcel)
    (h : s.Get n = .ok p) (hst : p.Status ≠ ParcelStatusRegistered) :
    s.SetAddress n a = (some (.new "can only change address for registered parcels"), s) := by
  simp [ParcelStore.SetAddress, h, hst]

theorem SetAddress_of_registered (s : ParcelStore) (n : Int) (a : String) (p : Parcel)
    (h : s.Get n = .ok p) (hst : p.Status = ParcelStatusRegistered) :
    s.SetAddress n a =
      (none, ⟨⟨s.db.rows.map (fun r => if r.Number = n then { r with Address := a } else r),
        s.db.seq⟩⟩) := by
  simp [ParcelStore.SetAddress, h, hst, DB.ExecSetAddress]

theorem Delete_of_Get_error (s : ParcelStore) (n : Int) (e : GoError)
    (h : s.Get n = .error e) : s.Delete n = (some e, s) := by
  simp [ParcelStore.Delete, h]

theorem Delete_of_guard (s : ParcelStore) (n : Int) (p : Parcel)
    (h : s.Get n = .ok p) (hst : p.Status ≠ ParcelStatusRegistered) :
    s.Delete n = (some (.new "can only delete registered parcels"), s) := by
  simp [ParcelStore.Delete, h, hst]

theorem Delete_of_registered (s : ParcelStore) (n : Int) (p : Parcel)
    (h : s.Get n = .ok p) (hst : p.Status = ParcelStatusRegistered) :
    s.Delete n = (none, ⟨⟨s.db.rows.filter (fun r => !(r.Number == n)), s.db.seq⟩⟩) := by
  simp [ParcelStore.Delete, h, hst, DB.ExecDelete]

/-- Either `Delete` reports an error and leaves the store as it was, or it reports none
and the table has lost the rows numbered `n`. -/
theorem Delete_cases (s : ParcelStore) (n : Int) :
    (∃ e, s.Delete n = (some e, s)) ∨
    s.Delete n = (none, ⟨⟨s.db.rows.filter (fun r => !(r.Number == n)), s.db.seq⟩⟩) := by
  cases hg : s.Get n with
  | error e => exact Or.inl ⟨e, Delete_of_Get_error s n e hg⟩
  | ok p =>
    by_cases hst : p.Status = ParcelStatusRegistered
    · exact Or.inr (Delete_of_registered s n p hg hst)
    · exact Or.inl ⟨_, Delete_of_guard s n p hg hst⟩

/-- Either `SetAddress` reports an error and leaves the store as it was, or it reports
none and the rows numbered `n` carry the new address. -/
theorem SetAddress_cases (s : ParcelStore) (n : Int) (a : String) :
    (∃ e, s.SetAddress n a = (some e, s)) ∨
    s.SetAddress n a =
      (none, ⟨⟨s.db.rows.map (fun r => if r.Number = n then { r with Address := a } else r),
        s.db.seq⟩⟩) := by
  cases hg : s.Get n with
  | error e => exact Or.inl ⟨e, SetAddress_of_Get_error s n a e hg⟩
  | ok p =>
    by_cases hst : p.Status = ParcelStatusRegistered
    · exact Or.inr (SetAddress_of_registered s n a p hg hst)
    · exact Or.inl ⟨_, SetAddress_of_guard s n a p hg hst⟩

/-- Either `Add` reports an error and leaves the store as it was, or it returns a fresh
identifier `v` and the table has gained one row numbered `v`. -/
theorem Add_cases (s : ParcelStore) (p : Parcel) :
    (∃ e, s.Add p = (.error e, s)) ∨
    ∃ v, ((∀ r ∈ s.db.rows, r.Number < v) ∧ s.db.seq < v) ∧
      s.Add p = (.ok v,
        ⟨⟨s.db.rows ++ [⟨v, p.Client, p.Status, p.Address, p.CreatedAt⟩], v⟩⟩) := by
  cases hn : s.db.NewRowid with
  | error e => exact Or.inl ⟨e, Add_of_NewRowid_error s p e hn⟩
  | ok v => exact Or.inr ⟨v, NewRowid_fresh s.db v hn, Add_of_NewRowid_ok s p v hn⟩

theorem map_Number_of_preserving (f : Parcel → Parcel) (rows : List Parcel)
    (hf : ∀ r, (f r).Number = r.Number) :
    (rows.map f).map Parcel.Number = rows.map Parcel.Number := by
  rw [List.map_map]
  exact List.map_congr_left (fun r _ => hf r)

theorem loop_eq (rows res : List Parcel) :
    ParcelStore.GetByClient.loop rows res = .ok (res ++ rows) := by
  induction rows generalizing res with
  | nil => simp [ParcelStore.GetByClient.loop]
  | cons r rs ih => simp [ParcelStore.GetByClient.loop, Rows.Scan, ih]

theorem GetByClient_eq (s : ParcelStore) (client : Int) :
    s.GetByClient client = .ok (s.db.rows.filter (fun r => r.Client == client)) := by
  simp [ParcelStore.GetByClient, DB.Query, loop_eq]

theorem nodup_rows_of_Valid (db : DB) (hv : db.Valid) : db.rows.Nodup :=
  List.Nodup.of_map _ hv.1

/-! ## The schema constraints are an invariant of the store -/

theorem Valid_NewParcelStore : ∀ s, NewParcelStore none = some s → s.db.Valid := by
  intro s h
  simp only [NewParcelStore, DB.ExecCreate, Option.some.injEq] at h
  subst h
  exact ⟨by simp, le_refl _⟩

theorem Valid_Add (s : ParcelStore) (p : Parcel) (hv : s.db.Valid) :
    (s.Add p).2.db.Valid := by
  rcases Add_cases s p with ⟨e, he⟩ | ⟨v, ⟨hfresh, hseq⟩, hv'⟩
  · rw [he]; exact hv
  · rw [hv']
    refine ⟨?_, ?_⟩
    · simp only [List.map_append, List.map_cons, List.map_nil]
      rw [List.nodup_append]
      refine ⟨hv.1, by simp, ?_⟩
      intro a ha hb
      simp only [List.mem_singleton] at hb
      obtain ⟨r, hr, rfl⟩ := List.mem_map.mp ha
      have := hfresh r hr
      omega
    · have := hv.2
      show 0 ≤ v
      omega

theorem Valid_SetStatus (s : ParcelStore) (n : Int) (st : String) (hv : s.db.Valid) :
    (s.SetStatus n st).2.db.Valid := by
  rw [SetStatus_eq]
  refine ⟨?_, hv.2⟩
  show ((s.db.rows.map _).map Parcel.Number).Nodup
  rw [map_Number_of_preserving _ _ (fun r => by split <;> rfl)]
  exact hv.1

theorem Valid_SetAddress (s : ParcelStore) (n : Int) (a : String) (hv : s.db.Valid) :
    (s.SetAddress n a).2.db.Valid := by
  rcases SetAddress_cases s n a with ⟨e, he⟩ | h
  · rw [he]; exact hv
  · rw [h]
    refine ⟨?_, hv.2⟩
    show ((s.db.rows.map _).map Parcel.Number).Nodup
    rw [map_Number_of_preserving _ _ (fun r => by split <;> rfl)]
    exact hv.1

theorem Valid_Delete (s : ParcelStore) (n : Int) (hv : s.db.Valid) :
    (s.Delete n).2.db.Valid := by
  rcases Delete_cases s n with ⟨e, he⟩ | h
  · rw [he]; exact hv
  · rw [h]
    refine ⟨?_, hv.2⟩
    show ((s.db.rows.filter _).map Parcel.Number).Nodup
    exact List.Nodup.sublist (List.Sublist.map _ (List.filter_sublist _)) hv.1

theorem eq_of_Number_eq (db : DB) (hv : db.Valid) (p r : Parcel)
    (hp : p ∈ db.rows) (hr : r ∈ db.rows) (h : r.Number = p.Number) : r = p :=
  List.inj_on_of_nodup_map hv.1 hr hp h

/-- An UPDATE that rewrites a column other than `number`, `client` and `created_at`
on the rows numbered `n`: a row of the result that shares its number with a row `p`
of the table has the client and creation time of `p`. -/
theorem update_keeps (db : DB) (hv : db.Valid) (n : Int) (g : Parcel → Parcel)
    (hg : ∀ r, (g r).Number = r.Number ∧ (g r).Client = r.Client ∧
      (g r).CreatedAt = r.CreatedAt)
    (p q : Parcel) (hp : p ∈ db.rows) (hpq : q.Number = p.Number)
    (hq : q ∈ db.rows.map (fun r => if r.Number = n then g r else r)) :
    q.Client = p.Client ∧ q.CreatedAt = p.CreatedAt := by
  obtain ⟨r, hr, rfl⟩ := List.mem_map.mp hq
  have hnum : r.Number = p.Number := by
    split at hpq
    · rw [(hg r).1] at hpq; exact hpq
    · exact hpq
  have := eq_of_Number_eq db hv p r hp hr hnum
  subst this
  split
  · exact ⟨(hg r).2.1, (hg r).2.2⟩
  · exact ⟨rfl, rfl⟩

/-- An UPDATE restricted to the rows numbered `n` neither adds nor removes a row with
another number. -/
theorem update_other (rows : List Parcel) (n : Int) (g : Parcel → Parcel)
    (hg : ∀ r, (g r).Number = r.Number) (r : Parcel) (hr : r.Number ≠ n) :
    r ∈ rows.map (fun x => if x.Number = n then g x else x) ↔ r ∈ rows := by
  constructor
  · intro h
    obtain ⟨x, hx, hxr⟩ := List.mem_map.mp h
    by_cases hxn : x.Number = n
    · rw [if_pos hxn] at hxr
      exact absurd (by rw [← hxr, hg x]; exact hxn) hr
    · rw [if_neg hxn] at hxr
      exact hxr ▸ hx
  · intro h
    exact List.mem_map.mpr ⟨r, h, by rw [if_neg hr]⟩

theorem Valid_after (s : ParcelStore) (c : Call) (hv : s.db.Valid) : (s.after c).db.Valid := by
  cases c with
  | add p => exact Valid_Add s p hv
  | setStatus n st => exact Valid_SetStatus s n st hv
  | setAddress n a => exact Valid_SetAddress s n a hv
  | delete n => exact Valid_Delete s n hv

/-- Every store reached from the freshly created one by calls of the writing methods
satisfies the schema constraints. -/
theorem Valid_afterAll (calls : List Call) : (freshStore.afterAll calls).db.Valid := by
  have key : ∀ (cs : List Call) (s : ParcelStore), s.db.Valid → (s.afterAll cs).db.Valid := by
    intro cs
    induction cs with
    | nil => intro s hs; exact hs
    | cons c cs ih =>
      intro s hs
      exact ih (s.after c) (Valid_after s c hs)
  exact key calls freshStore (by decide)

theorem NewParcelStore_none : NewParcelStore none = some freshStore := rfl

/-- The run of `TestAddGetDelete` on a fresh store: the first identifier is 1, the parcel
read back is the one added, and after the delete the parcel is not found. -/
theorem TestAddGetDelete_run :
    freshStore.Add getTestParcel = (.ok 1, freshStore.afterAll [.add getTestParcel]) ∧
    (freshStore.afterAll [.add getTestParcel]).Get 1 =
      .ok ⟨1, 1000, "registered", "test", "2024-01-01T00:00:00Z"⟩ ∧
    ((freshStore.afterAll [.add getTestParcel]).Delete 1).1 = none ∧
    (freshStore.afterAll [.add getTestParcel, .delete 1]).Get 1 =
      .error (.new "parcel not found") :=
  ⟨rfl, rfl, rfl, rfl⟩

/-- The scenario of the specification: after the address change and the status change to
`sent`, both `Delete` and `SetAddress` are refused by their guards. -/
theorem scenario_run :
    (freshStore.afterAll [.add getTestParcel, .setAddress 1 "new address"]).Get 1 =
      .ok ⟨1, 1000, "registered", "new address", "2024-01-01T00:00:00Z"⟩ ∧
    (freshStore.afterAll
        [.add getTestParcel, .setAddress 1 "new address", .setStatus 1 "sent"]).Get 1 =
      .ok ⟨1, 1000, "sent", "new address", "2024-01-01T00:00:00Z"⟩ ∧
    ((freshStore.afterAll
        [.add getTestParcel, .setAddress 1 "new address", .setStatus 1 "sent"]).Delete 1).1 =
      some (.new "can only delete registered parcels") ∧
    ((freshStore.afterAll
        [.add getTestParcel, .setAddress 1 "new address", .setStatus 1 "sent"]).SetAddress
          1 "x").1 =
      some (.new "can only change address for registered parcels") :=
  ⟨rfl, rfl, rfl, rfl⟩

/-- The engine refuses the insert once the counter has reached the largest row id. -/
theorem Add_full :
    (ParcelStore.mk ⟨[], MAX_ROWID⟩).Add getTestParcel =
      (.error (.storage "database or disk is full"), ParcelStore.mk ⟨[], MAX_ROWID⟩) := rfl

/-! ## Contract of the store -/

/-- C1: when `Add p` succeeds with identifier `id` on a store satisfying the schema
constraints, `id` is not zero and `Get id` on the resulting store succeeds with the
parcel `p` renumbered `id`: `Number` is `id`, and `Client`, `Status`, `Address` and
`CreatedAt` are those of `p`. -/
theorem Add_then_Get (s s' : ParcelStore) (p : Parcel) (id : Int) (hv : s.db.Valid)
    (h : s.Add p = (.ok id, s')) :
    id ≠ 0 ∧ s'.Get id = .ok ⟨id, p.Client, p.Status, p.Address, p.CreatedAt⟩ := by
  rcases Add_cases s p with ⟨e, he⟩ | ⟨v, ⟨hfresh, hseq⟩, hv'⟩
  · rw [he] at h; simp at h
  · rw [hv'] at h
    simp only [Prod.mk.injEq, Except.ok.injEq] at h
    obtain ⟨rfl, rfl⟩ := h
    have h0 := hv.2
    refine ⟨by omega, ?_⟩
    have hnone : s.db.rows.find? (fun r => r.Number == v) = none := by
      rw [List.find?_eq_none]
      intro r hr
      have := hfresh r hr
      simp only [beq_iff_eq]
      omega
    simp [ParcelStore.Get, DB.QueryRow, List.find?_append, hnone, Row.Scan]

/-- C2: when `Delete id` succeeds, `Get id` on the resulting store fails with the error
whose message is "parcel not found". -/
theorem Delete_then_Get (s s' : ParcelStore) (id : Int) (h : s.Delete id = (none, s')) :
    ∃ e, s'.Get id = .error e ∧ e.Error = "parcel not found" := by
  rcases Delete_cases s id with ⟨e, he⟩ | hd
  · rw [he] at h; simp at h
  · rw [hd] at h
    simp only [Prod.mk.injEq, true_and] at h
    subst h
    refine ⟨.new "parcel not found", Get_absent _ id ?_, rfl⟩
    intro r hr
    simp only [List.mem_filter] at hr
    simpa using hr.2

/-- C8: for a number `n` that no stored parcel carries, `Get n`, `SetAddress n a` for
every `a`, and `Delete n` all fail with the same error, whose message is
"parcel not found", and the store stays as it was. -/
theorem absent_not_found (s : ParcelStore) (n : Int)
    (h : ∀ r ∈ s.db.rows, r.Number ≠ n) :
    ∃ e, e.Error = "parcel not found" ∧ s.Get n = .error e ∧
      (∀ a, s.SetAddress n a = (some e, s)) ∧ s.Delete n = (some e, s) := by
  have hg := Get_absent s n h
  exact ⟨.new "parcel not found", rfl, hg,
    fun a => SetAddress_of_Get_error s n a _ hg, Delete_of_Get_error s n _ hg⟩

/-- C9: for a number `n` that no stored parcel carries and every string `st`,
`SetStatus n st` returns no error and the store stays as it was. -/
theorem SetStatus_absent (s : ParcelStore) (n : Int) (st : String)
    (h : ∀ r ∈ s.db.rows, r.Number ≠ n) :
    s.SetStatus n st = (none, s) := by
  rw [SetStatus_eq, map_eq_self_of_forall _ _ (fun r hr => by simp [h r hr])]

/-- C3: when the stored parcel numbered `id` has status `registered`, `SetAddress id a`
succeeds and `Get id` on the resulting store returns that parcel with `Address` equal
to `a` (the other fields as stored). -/
theorem SetAddress_registered (s : ParcelStore) (p : Parcel) (id : Int) (a : String)
    (hv : s.db.Valid) (hp : p ∈ s.db.rows) (hid : p.Number = id)
    (hst : p.Status = ParcelStatusRegistered) :
    (s.SetAddress id a).1 = none ∧
    ∃ q, (s.SetAddress id a).2.Get id = .ok q ∧ q.Address = a ∧
      q = ⟨p.Number, p.Client, p.Status, a, p.CreatedAt⟩ := by
  subst hid
  have hg := Get_present s p hv hp
  have hv' := Valid_SetAddress s p.Number a hv
  rw [SetAddress_of_registered s p.Number a p hg hst] at hv' ⊢
  refine ⟨rfl, ⟨p.Number, p.Client, p.Status, a, p.CreatedAt⟩, ?_, rfl, rfl⟩
  refine Get_present _ ⟨p.Number, p.Client, p.Status, a, p.CreatedAt⟩ hv' ?_
  show _ ∈ s.db.rows.map _
  exact List.mem_map.mpr ⟨p, hp, by simp⟩

/-- C4: when the stored parcel numbered `id` has a status other than `registered`,
`SetAddress id a` fails with the error whose message is
"can only change address for registered parcels", which is not the not-found error, and
the store stays as it was, so `Get id` still returns the parcel with its previous
address. -/
theorem SetAddress_guard (s : ParcelStore) (p : Parcel) (id : Int) (a : String)
    (hv : s.db.Valid) (hp : p ∈ s.db.rows) (hid : p.Number = id)
    (hst : p.Status ≠ ParcelStatusRegistered) :
    ∃ e, s.SetAddress id a = (some e, s) ∧
      e.Error = "can only change address for registered parcels" ∧
      e ≠ .new "parcel not found" ∧ e.Error ≠ "parcel not found" ∧
      (s.SetAddress id a).2.Get id = .ok p := by
  subst hid
  have hg := Get_present s p hv hp
  have hs := SetAddress_of_guard s p.Number a p hg hst
  refine ⟨_, hs, rfl, by decide, by decide, ?_⟩
  rw [hs]; exact hg

/-- C5: when the stored parcel numbered `id` has a status other than `registered`,
`Delete id` fails with the error whose message is "can only delete registered parcels",
which is not the not-found error, and the store stays as it was, so `Get id` still
succeeds with the same parcel. -/
theorem Delete_guard (s : ParcelStore) (p : Parcel) (id : Int)
    (hv : s.db.Valid) (hp : p ∈ s.db.rows) (hid : p.Number = id)
    (hst : p.Status ≠ ParcelStatusRegistered) :
    ∃ e, s.Delete id = (some e, s) ∧
      e.Error = "can only delete registered parcels" ∧
      e ≠ .new "parcel not found" ∧ e.Error ≠ "parcel not found" ∧
      (s.Delete id).2.Get id = .ok p := by
  subst hid
  have hg := Get_present s p hv hp
  have hs := Delete_of_guard s p.Number p hg hst
  refine ⟨_, hs, rfl, by decide, by decide, ?_⟩
  rw [hs]; exact hg

/-- C6: when a parcel numbered `id` is stored, whatever its status, and `st` is any
string, `SetStatus id st` succeeds and `Get id` on the resulting store returns that
parcel with `Status` equal to `st` (the other fields as stored). -/
theorem SetStatus_then_Get (s : ParcelStore) (p : Parcel) (id : Int) (st : String)
    (hv : s.db.Valid) (hp : p ∈ s.db.rows) (hid : p.Number = id) :
    (s.SetStatus id st).1 = none ∧
    ∃ q, (s.SetStatus id st).2.Get id = .ok q ∧ q.Status = st ∧
      q = ⟨p.Number, p.Client, st, p.Address, p.CreatedAt⟩ := by
  subst hid
  have hv' := Valid_SetStatus s p.Number st hv
  rw [SetStatus_eq] at hv' ⊢
  refine ⟨rfl, ⟨p.Number, p.Client, st, p.Address, p.CreatedAt⟩, ?_, rfl, rfl⟩
  refine Get_present _ ⟨p.Number, p.Client, st, p.Address, p.CreatedAt⟩ hv' ?_
  show _ ∈ s.db.rows.map _
  exact List.mem_map.mpr ⟨p, hp, by simp⟩

/-- C7: `GetByClient c` succeeds; its result holds each stored parcel whose `Client` is
`c` exactly once, every parcel in it is a stored parcel (all five fields as stored)
whose `Client` is `c`, and it is empty when no stored parcel has `Client` equal to `c`. -/
theorem GetByClient_exact (s : ParcelStore) (c : Int) (hv : s.db.Valid) :
    ∃ res, s.GetByClient c = .ok res ∧
      (∀ p ∈ s.db.rows, p.Client = c → res.count p = 1) ∧
      (∀ p ∈ res, p ∈ s.db.rows ∧ p.Client = c) ∧
      ((∀ p ∈ s.db.rows, p.Client ≠ c) → res = []) := by
  refine ⟨_, GetByClient_eq s c, ?_, ?_, ?_⟩
  · intro p hp hc
    refine List.count_eq_one_of_mem ((nodup_rows_of_Valid _ hv).filter _) ?_
    exact List.mem_filter.mpr ⟨hp, by simpa using hc⟩
  · intro p hp
    have := List.mem_filter.mp hp
    exact ⟨this.1, by simpa using this.2⟩
  · intro h
    rw [List.filter_eq_nil_iff]
    intro p hp
    simpa using h p hp

/-- C10: frame of the four writing calls on a store satisfying the schema constraints.
A parcel stored before a call of `Add`, `SetStatus`, `SetAddress` or `Delete` and
stored, under the same `Number`, after it has the same `Client` and `CreatedAt`;
and `SetStatus n`, `SetAddress n` and `Delete n` leave every parcel whose number is
not `n` as it was: such a parcel is stored after the call exactly when it was stored
before it. -/
theorem writes_frame (s : ParcelStore) (hv : s.db.Valid) :
    (∀ p ∈ s.db.rows, ∀ q, q.Number = p.Number →
      (∀ x, q ∈ (s.Add x).2.db.rows → q.Client = p.Client ∧ q.CreatedAt = p.CreatedAt) ∧
      (∀ n st, q ∈ (s.SetStatus n st).2.db.rows →
        q.Client = p.Client ∧ q.CreatedAt = p.CreatedAt) ∧
      (∀ n a, q ∈ (s.SetAddress n a).2.db.rows →
        q.Client = p.Client ∧ q.CreatedAt = p.CreatedAt) ∧
      (∀ n, q ∈ (s.Delete n).2.db.rows →
        q.Client = p.Client ∧ q.CreatedAt = p.CreatedAt)) ∧
    (∀ n r, r.Number ≠ n →
      (∀ st, r ∈ (s.SetStatus n st).2.db.rows ↔ r ∈ s.db.rows) ∧
      (∀ a, r ∈ (s.SetAddress n a).2.db.rows ↔ r ∈ s.db.rows) ∧
      (r ∈ (s.Delete n).2.db.rows ↔ r ∈ s.db.rows)) := by
  constructor
  · intro p hp q hpq
    have same : q ∈ s.db.rows → q.Client = p.Client ∧ q.CreatedAt = p.CreatedAt := by
      intro hq
      rw [eq_of_Number_eq s.db hv p q hp hq hpq]
      exact ⟨rfl, rfl⟩
    refine ⟨?_, ?_, ?_, ?_⟩
    · intro x hq
      rcases Add_cases s x with ⟨e, he⟩ | ⟨v, ⟨hfresh, _⟩, hadd⟩
      · rw [he] at hq; exact same hq
      · rw [hadd] at hq
        rcases List.mem_append.mp hq with hq | hq
        · exact same hq
        · simp only [List.mem_singleton] at hq
          have := hfresh p hp
          rw [hq] at hpq
          simp only at hpq
          omega
    · intro n st hq
      rw [SetStatus_eq] at hq
      exact update_keeps s.db hv n (fun r => { r with Status := st })
        (fun r => ⟨rfl, rfl, rfl⟩) p q hp hpq hq
    · intro n a hq
      rcases SetAddress_cases s n a with ⟨e, he⟩ | h
      · rw [he] at hq; exact same hq
      · rw [h] at hq
        exact update_keeps s.db hv n (fun r => { r with Address := a })
          (fun r => ⟨rfl, rfl, rfl⟩) p q hp hpq hq
    · intro n hq
      rcases Delete_cases s n with ⟨e, he⟩ | h
      · rw [he] at hq; exact same hq
      · rw [h] at hq
        exact same (List.mem_filter.mp hq).1
  · intro n r hr
    refine ⟨?_, ?_, ?_⟩
    · intro st
      rw [SetStatus_eq]
      exact update_other s.db.rows n (fun x => { x with Status := st }) (fun _ => rfl) r hr
    · intro a
      rcases SetAddress_cases s n a with ⟨e, he⟩ | h
      · rw [he]
      · rw [h]
        exact update_other s.db.rows n (fun x => { x with Address := a }) (fun _ => rfl) r hr
    · rcases Delete_cases s n with ⟨e, he⟩ | h
      · rw [he]
      · rw [h]
        show r ∈ s.db.rows.filter _ ↔ _
        rw [List.mem_filter]
        simp [hr]

/-! ## The theorems at work on `sampleStore` -/

theorem Add_then_Get_witness :
    sampleStore.db.Valid ∧ sampleStore.Add getTestParcel = (.ok 4, (sampleStore.Add getTestParcel).2) ∧
      (4 : Int) ≠ 0 ∧
      (sampleStore.Add getTestParcel).2.Get 4 =
        .ok ⟨4, 1000, "registered", "test", "2024-01-01T00:00:00Z"⟩ :=
  ⟨by decide, rfl,
    Add_then_Get sampleStore (sampleStore.Add getTestParcel).2 getTestParcel 4 (by decide) rfl⟩

theorem Delete_then_Get_witness :
    sampleStore.Delete 1 = (none, (sampleStore.Delete 1).2) ∧
      ∃ e, (sampleStore.Delete 1).2.Get 1 = .error e ∧ e.Error = "parcel not found" :=
  ⟨rfl, Delete_then_Get sampleStore (sampleStore.Delete 1).2 1 rfl⟩

theorem SetAddress_registered_witness :
    (sampleStore.SetAddress 1 "new address").1 = none ∧
    ∃ q, (sampleStore.SetAddress 1 "new address").2.Get 1 = .ok q ∧ q.Address = "new address" ∧
      q = ⟨1, 1000, "registered", "new address", "2024-01-01T00:00:00Z"⟩ :=
  SetAddress_registered sampleStore ⟨1, 1000, "registered", "test", "2024-01-01T00:00:00Z"⟩
    1 "new address" (by decide) (by decide) rfl (by decide)

theorem SetAddress_guard_witness :
    ∃ e, sampleStore.SetAddress 2 "x" = (some e, sampleStore) ∧
      e.Error = "can only change address for registered parcels" ∧
      e ≠ .new "parcel not found" ∧ e.Error ≠ "parcel not found" ∧
      (sampleStore.SetAddress 2 "x").2.Get 2 =
        .ok ⟨2, 7, "sent", "far away", "2024-01-02T00:00:00Z"⟩ :=
  SetAddress_guard sampleStore ⟨2, 7, "sent", "far away", "2024-01-02T00:00:00Z"⟩
    2 "x" (by decide) (by decide) rfl (by decide)

theorem Delete_guard_witness :
    ∃ e, sampleStore.Delete 3 = (some e, sampleStore) ∧
      e.Error = "can only delete registered parcels" ∧
      e ≠ .new "parcel not found" ∧ e.Error ≠ "parcel not found" ∧
      (sampleStore.Delete 3).2.Get 3 =
        .ok ⟨3, 1000, "delivered", "home", "2024-01-03T00:00:00Z"⟩ :=
  Delete_guard sampleStore ⟨3, 1000, "delivered", "home", "2024-01-03T00:00:00Z"⟩
    3 (by decide) (by decide) rfl (by decide)

theorem SetStatus_then_Get_witness :
    (sampleStore.SetStatus 2 "no such status").1 = none ∧
    ∃ q, (sampleStore.SetStatus 2 "no such status").2.Get 2 = .ok q ∧
      q.Status = "no such status" ∧
      q = ⟨2, 7, "no such status", "far away", "2024-01-02T00:00:00Z"⟩ :=
  SetStatus_then_Get sampleStore ⟨2, 7, "sent", "far away", "2024-01-02T00:00:00Z"⟩
    2 "no such status" (by decide) (by decide) rfl

theorem GetByClient_exact_witness :
    ∃ res, sampleStore.GetByClient 1000 = .ok res ∧
      (∀ p ∈ sampleStore.db.rows, p.Client = 1000 → res.count p = 1) ∧
      (∀ p ∈ res, p ∈ sampleStore.db.rows ∧ p.Client = 1000) ∧
      ((∀ p ∈ sampleStore.db.rows, p.Client ≠ 1000) → res = []) :=
  GetByClient_exact sampleStore 1000 (by decide)

theorem absent_not_found_witness :
    ∃ e, e.Error = "parcel not found" ∧ sampleStore.Get 9 = .error e ∧
      (∀ a, sampleStore.SetAddress 9 a = (some e, sampleStore)) ∧
      sampleStore.Delete 9 = (some e, sampleStore) :=
  absent_not_found sampleStore 9 (by decide)

theorem SetStatus_absent_witness :
    sampleStore.SetStatus 9 "sent" = (none, sampleStore) :=
  SetStatus_absent sampleStore 9 "sent" (by decide)

theorem writes_frame_witness :
    sampleStore.db.Valid ∧
    ((⟨1, 1000, "sent", "test", "2024-01-01T00:00:00Z"⟩ : Parcel) ∈
        (sampleStore.SetStatus 1 "sent").2.db.rows ∧
      (⟨1, 1000, "sent", "test", "2024-01-01T00:00:00Z"⟩ : Parcel).Client = 1000 ∧
      (⟨1, 1000, "sent", "test", "2024-01-01T00:00:00Z"⟩ : Parcel).CreatedAt =
        "2024-01-01T00:00:00Z") ∧
    ((⟨2, 7, "sent", "far away", "2024-01-02T00:00:00Z"⟩ : Parcel) ∈
        (sampleStore.Delete 1).2.db.rows ↔
      (⟨2, 7, "sent", "far away", "2024-01-02T00:00:00Z"⟩ : Parcel) ∈ sampleStore.db.rows) :=
  ⟨by decide,
   ⟨by decide,
    (((writes_frame sampleStore (by decide)).1
      ⟨1, 1000, "registered", "test", "2024-01-01T00:00:00Z"⟩ (by decide)
      ⟨1, 1000, "sent", "test", "2024-01-01T00:00:00Z"⟩ rfl).2.1 1 "sent" (by decide))⟩,
   ((writes_frame sampleStore (by decide)).2 1
      ⟨2, 7, "sent", "far away", "2024-01-02T00:00:00Z"⟩ (by decide)).2.2⟩

end Sprint8
